import Mathlib

/-!
Verification of `autoreveal.py` (AutoReveal: automatic Reveal.js slide builder).

The development shallowly embeds the program's core: the string rewrites
performed with `re.sub`, the `process_loads` transclusion resolver (together
with a model of the `html.parser`-based BeautifulSoup tree it operates on),
the `build_slides` assembly pipeline, and the reload-flag channel used by the
live-reload endpoint.  Strings are modelled as `List Char`; the filesystem is
an association list from path to file text; the mutable tag tree of
BeautifulSoup is modelled as an immutable tree that each operation rebuilds.
-/

namespace AutoReveal

/-- Character strings, modelled as lists of characters. -/
abbrev S := List Char

/-- The double-quote character (written via its code point). -/
def quoteC : Char := Char.ofNat 34

/-- The apostrophe character (written via its code point). -/
def aposC : Char := Char.ofNat 39

/-- Python's `\s` class over the ASCII range (space, tab, newline, carriage
return, vertical tab, form feed) — the characters `re` treats as whitespace
in the patterns used by `build_slides`. -/
def isPSpace (c : Char) : Bool :=
  c = ' ' || c = '\t' || c = '\n' || c = '\x0d' || c = '\x0b' || c = '\x0c'

/-- ASCII lowercasing of a string, as `str.lower()` behaves on ASCII input. -/
def lowerS (s : S) : S := s.map Char.toLower

/-- Extension starting at the last `.` of `s`, or `[]` if `s` has no dot.
Helper for `splitext_ext`. -/
def lastDotExt (s : S) : S :=
  if s.reverse.dropWhile (· ≠ '.') = [] then []
  else '.' :: (s.reverse.takeWhile (· ≠ '.')).reverse

/-- The part of `p` after the last `/` (the path's final component),
as `os.path.basename` computes it for relative POSIX paths. -/
def baseNameS (p : S) : S := (p.reverse.takeWhile (· ≠ '/')).reverse

/-- The part of `p` before the last `/`, or `[]` when `p` has no `/` —
`os.path.dirname` for relative POSIX paths. -/
def dirNameS (p : S) : S :=
  if p.reverse.dropWhile (· ≠ '/') = [] then []
  else ((p.reverse.dropWhile (· ≠ '/')).drop 1).reverse

/-- The extension component of `os.path.splitext`: the suffix from the last
dot of the final path component, where leading dots of the component do not
begin an extension (`splitext(".py")` has extension `""`). -/
def splitext_ext (p : S) : S :=
  let base := baseNameS p
  lastDotExt (base.dropWhile (· = '.'))

/-- `os.path.join(base, p)` for the shapes the program uses: a relative `p`
joined onto `base`, where an empty `base` or an absolute `p` leaves `p`
as-is and otherwise a single separator is inserted. -/
def path_join (base p : S) : S :=
  if base = [] then p
  else if p.head? = some '/' then p
  else base ++ '/' :: p

/-- The `extension_to_lang` table of the source: file extension to
syntax-highlighting language identifier. -/
def extension_to_lang : List (S × S) :=
  [(".py".data, "python".data), (".js".data, "javascript".data),
   (".ts".data, "typescript".data), (".css".data, "css".data),
   (".html".data, "html".data), (".xml".data, "xml".data),
   (".json".data, "json".data), (".md".data, "markdown".data),
   (".sh".data, "bash".data), (".sql".data, "sql".data),
   (".java".data, "java".data), (".c".data, "c".data),
   (".cpp".data, "cpp".data), (".cs".data, "csharp".data),
   (".php".data, "php".data), (".rb".data, "ruby".data),
   (".go".data, "go".data), (".rs".data, "rust".data),
   (".mermaid".data, "mermaid".data)]

/-- Association-list lookup with string keys (`dict.get`). -/
def lookupS (m : List (S × S)) (k : S) : Option S :=
  match m with
  | [] => none
  | (k', v) :: rest => if k' = k then some v else lookupS rest k

/-- The language tag chosen for extension `ext` in the `data-load-code`
branch: `extension_to_lang.get(ext, ext[1:] if ext else "text")`. -/
def langFor (ext : S) : S :=
  match lookupS extension_to_lang ext with
  | some l => l
  | none => if ext = [] then "text".data else ext.drop 1

/-- `html.escape` with its default `quote=True`: `&`, `<`, `>`, `"` and `'`
replaced by entities.  The sequential `str.replace` chain of the library is
equivalent to this single character-wise map because no replacement output
re-triggers a later replacement. -/
def escapeChar (c : Char) : S :=
  if c = '&' then "&amp;".data
  else if c = '<' then "&lt;".data
  else if c = '>' then "&gt;".data
  else if c = quoteC then "&quot;".data
  else if c = aposC then "&#x27;".data
  else [c]

/-- `html.escape` over a whole string. -/
def html_escape (s : S) : S := s.foldr (fun c acc => escapeChar c ++ acc) []

/-- Split `s` at its first double quote: `some (before, after)` where the
quote itself is dropped, or `none` when `s` has no quote.  This is how the
regex piece `([^"]*)"` consumes input. -/
def spanToQuote (s : S) : Option (S × S) :=
  if (s.dropWhile (· ≠ quoteC)) = [] then none
  else some (s.takeWhile (· ≠ quoteC), (s.dropWhile (· ≠ quoteC)).drop 1)

/-- One `re.sub(attr + '="\./([^"]*)"', attr + '="' + pre + '/\1"', s)` pass:
scan left to right; at each position where `attr="./` begins and a closing
quote follows, splice `pre` in place of the `.` and continue after the
match; otherwise advance one character.  `fuel` bounds the recursion and is
always called with at least `s.length + 1`. -/
def subRefGo (attr pre : S) : Nat → S → S
  | 0, s => s
  | _ + 1, [] => []
  | fuel + 1, c :: cs =>
    let pat := attr ++ '=' :: quoteC :: '.' :: '/' :: []
    if pat.isPrefixOf (c :: cs) then
      match spanToQuote ((c :: cs).drop pat.length) with
      | some (cap, rest) =>
        attr ++ '=' :: quoteC :: (pre ++ '/' :: (cap ++ quoteC :: subRefGo attr pre fuel rest))
      | none => c :: subRefGo attr pre fuel cs
    else c :: subRefGo attr pre fuel cs

/-- Top-level single-attribute reference rewrite. -/
def subRef (attr pre s : S) : S := subRefGo attr pre (s.length + 1) s

/-- The three consecutive `re.sub` rewrites the program applies to markup
text (in source order): `src="./…"`, `data-load="./…"`,
`data-load-code="./…"`, each becoming `attr="pre/…"`. -/
def rewriteRefs (pre s : S) : S :=
  subRef "data-load-code".data pre (subRef "data-load".data pre (subRef "src".data pre s))

/-!
## The markup tree

`process_loads` works on a `BeautifulSoup` tree produced by the stdlib
`html.parser` builder.  The model below reproduces that pipeline: a
character-level lexer (a fold over the input, mirroring `HTMLParser` with
`convert_charrefs=True`: tag and attribute names lowercased, character
references in data and attribute values decoded, a `<` that does not open a
tag treated as data, adjacent data runs merged into one string node), and a
stack-based tree builder (mirroring BeautifulSoup's `_popToTag`: an end tag
pops up to and including the nearest matching open tag, popping every
intervening open element, and an end tag with no match pops every open
element; void elements and `…/>` tags close immediately).  Raw-text elements
(`<script>`/`<style>` content) and markup declarations are not modelled;
no input the program builds for this tree feeds them. -/

/-- Characters allowed in tag and attribute names by the lexer model. -/
def isNameC (c : Char) : Bool := c.isAlphanum || c = '-' || c = '_' || c = ':'

/-- Characters that may continue a character reference (`&…;`). -/
def isEntC (c : Char) : Bool := c.isAlphanum || c = '#'

/-- Decode one character-reference body (without `&` and `;`).  The
references produced by `html.escape` plus `&apos;`/`&#39;` are decoded;
anything else is kept literally. -/
def entDecode (e : S) : S :=
  if e = "amp".data then ['&']
  else if e = "lt".data then ['<']
  else if e = "gt".data then ['>']
  else if e = "quot".data then [quoteC]
  else if e = "#x27".data then [aposC]
  else if e = "#39".data then [aposC]
  else if e = "apos".data then [aposC]
  else '&' :: e ++ [';']

/-- Decode the character references of a complete string (used for attribute
values, which `HTMLParser` unescapes). -/
def decodeEntGo : Nat → S → S
  | 0, s => s
  | _ + 1, [] => []
  | fuel + 1, c :: cs =>
    if c = '&' then
      let e := cs.takeWhile isEntC
      if (cs.drop e.length).head? = some ';' then
        entDecode e ++ decodeEntGo fuel ((cs.drop e.length).drop 1)
      else c :: decodeEntGo fuel cs
    else c :: decodeEntGo fuel cs

/-- Entity decoding with enough fuel for the whole string. -/
def decodeEnt (s : S) : S := decodeEntGo (s.length + 1) s

/-- Lexer tokens: start tags (with attributes and an explicit `…/>` flag),
end tags, and character data. -/
inductive Tok where
  | opn (name : S) (attrs : List (S × S)) (selfClose : Bool) : Tok
  | cls (name : S) : Tok
  | txt (s : S) : Tok
deriving DecidableEq

/-- Lexer state.  `acc` is pending character data, kept until the next
complete tag so that adjacent data runs become a single string node. -/
inductive LS where
  | text (acc : S) : LS
  | ent (acc eacc : S) : LS
  | tagStart (acc : S) : LS
  | clsName (acc name : S) : LS
  | clsRest (acc name : S) : LS
  | tagName (acc name : S) : LS
  | betweenAttrs (acc name : S) (attrs : List (S × S)) : LS
  | attrName (acc name : S) (attrs : List (S × S)) (an : S) : LS
  | attrAfterEq (acc name : S) (attrs : List (S × S)) (an : S) : LS
  | attrValQ (acc name : S) (attrs : List (S × S)) (an av : S) : LS
  | attrValU (acc name : S) (attrs : List (S × S)) (an av : S) : LS
  | tagSlash (acc name : S) (attrs : List (S × S)) : LS
deriving DecidableEq

/-- Emit pending character data, if any, as a token. -/
def emitText (toks : List Tok) (acc : S) : List Tok :=
  if acc = [] then toks else toks ++ [Tok.txt acc]

/-- One lexer transition on one input character. -/
def lexStep (st : List Tok × LS) (c : Char) : List Tok × LS :=
  let (toks, ls) := st
  match ls with
  | .text acc =>
    if c = '<' then (toks, .tagStart acc)
    else if c = '&' then (toks, .ent acc [])
    else (toks, .text (acc ++ [c]))
  | .ent acc eacc =>
    if c = ';' then (toks, .text (acc ++ entDecode eacc))
    else if c = '<' then (toks, .tagStart (acc ++ '&' :: eacc))
    else if c = '&' then (toks, .ent (acc ++ '&' :: eacc) [])
    else if isEntC c then (toks, .ent acc (eacc ++ [c]))
    else (toks, .text (acc ++ '&' :: eacc ++ [c]))
  | .tagStart acc =>
    if c.isAlpha then (toks, .tagName acc [c.toLower])
    else if c = '/' then (toks, .clsName acc [])
    else if c = '<' then (toks, .tagStart (acc ++ ['<']))
    else if c = '&' then (toks, .ent (acc ++ ['<']) [])
    else (toks, .text (acc ++ '<' :: [c]))
  | .clsName acc name =>
    if isNameC c then (toks, .clsName acc (name ++ [c.toLower]))
    else if c = '>' then (emitText toks acc ++ [Tok.cls name], .text [])
    else (toks, .clsRest acc name)
  | .clsRest acc name =>
    if c = '>' then (emitText toks acc ++ [Tok.cls name], .text [])
    else (toks, .clsRest acc name)
  | .tagName acc name =>
    if isNameC c then (toks, .tagName acc (name ++ [c.toLower]))
    else if c = '>' then (emitText toks acc ++ [Tok.opn name [] false], .text [])
    else if c = '/' then (toks, .tagSlash acc name [])
    else (toks, .betweenAttrs acc name [])
  | .betweenAttrs acc name attrs =>
    if c = '>' then (emitText toks acc ++ [Tok.opn name attrs false], .text [])
    else if c = '/' then (toks, .tagSlash acc name attrs)
    else if isPSpace c then (toks, .betweenAttrs acc name attrs)
    else if isNameC c then (toks, .attrName acc name attrs [c.toLower])
    else (toks, .betweenAttrs acc name attrs)
  | .attrName acc name attrs an =>
    if isNameC c then (toks, .attrName acc name attrs (an ++ [c.toLower]))
    else if c = '=' then (toks, .attrAfterEq acc name attrs an)
    else if c = '>' then
      (emitText toks acc ++ [Tok.opn name (attrs ++ [(an, [])]) false], .text [])
    else if c = '/' then (toks, .tagSlash acc name (attrs ++ [(an, [])]))
    else (toks, .betweenAttrs acc name (attrs ++ [(an, [])]))
  | .attrAfterEq acc name attrs an =>
    if c = quoteC then (toks, .attrValQ acc name attrs an [])
    else if isPSpace c then (toks, .attrAfterEq acc name attrs an)
    else if c = '>' then
      (emitText toks acc ++ [Tok.opn name (attrs ++ [(an, [])]) false], .text [])
    else (toks, .attrValU acc name attrs an [c])
  | .attrValQ acc name attrs an av =>
    if c = quoteC then (toks, .betweenAttrs acc name (attrs ++ [(an, decodeEnt av)]))
    else (toks, .attrValQ acc name attrs an (av ++ [c]))
  | .attrValU acc name attrs an av =>
    if c = '>' then
      (emitText toks acc ++ [Tok.opn name (attrs ++ [(an, decodeEnt av)]) false], .text [])
    else if isPSpace c then (toks, .betweenAttrs acc name (attrs ++ [(an, decodeEnt av)]))
    else (toks, .attrValU acc name attrs an (av ++ [c]))
  | .tagSlash acc name attrs =>
    if c = '>' then (emitText toks acc ++ [Tok.opn name attrs true], .text [])
    else (toks, .betweenAttrs acc name attrs)

/-- End of input: flush pending data; a partially lexed tag is dropped
(no program input ends inside a tag). -/
def lexFinish (st : List Tok × LS) : List Tok :=
  match st.2 with
  | .text acc => emitText st.1 acc
  | .ent acc eacc => emitText st.1 (acc ++ '&' :: eacc)
  | .tagStart acc => emitText st.1 (acc ++ ['<'])
  | .clsName acc _ => emitText st.1 acc
  | .clsRest acc _ => emitText st.1 acc
  | .tagName acc _ => emitText st.1 acc
  | .betweenAttrs acc _ _ => emitText st.1 acc
  | .attrName acc _ _ _ => emitText st.1 acc
  | .attrAfterEq acc _ _ _ => emitText st.1 acc
  | .attrValQ acc _ _ _ _ => emitText st.1 acc
  | .attrValU acc _ _ _ _ => emitText st.1 acc
  | .tagSlash acc _ _ => emitText st.1 acc

/-- Lex a markup string into tokens. -/
def lexHtml (s : S) : List Tok := lexFinish (s.foldl lexStep ([], .text []))

-- Markup tree nodes: elements (tag, attributes in insertion order,
-- children) and string nodes.  `NodeList` is a dedicated list type so that
-- all tree functions are structurally recursive.
mutual
inductive Node where
  | elem (tag : S) (attrs : List (S × S)) (children : NodeList) : Node
  | txt (s : S) : Node
deriving DecidableEq
inductive NodeList where
  | nil : NodeList
  | cons (n : Node) (ns : NodeList) : NodeList
deriving DecidableEq
end

/-- Convert a plain list of nodes into a `NodeList`. -/
def NL.ofList : List Node → NodeList
  | [] => .nil
  | n :: ns => .cons n (NL.ofList ns)

/-- The void (empty-element) tags of the html.parser tree builder. -/
def voidTags : List S :=
  ["area".data, "base".data, "br".data, "col".data, "embed".data, "hr".data,
   "img".data, "input".data, "link".data, "meta".data, "source".data,
   "track".data, "wbr".data]

/-- Membership of a string in a string list. -/
def memS (x : S) : List S → Bool
  | [] => false
  | y :: ys => y = x || memS x ys

/-- An open element still on the builder stack. -/
structure Frame where
  tag : S
  attrs : List (S × S)
  kids : List Node

/-- Attach a finished node to the innermost open element, or to the root
sequence when no element is open. -/
def pushNode (n : Node) : List Frame → List Node → List Frame × List Node
  | [], acc => ([], acc ++ [n])
  | f :: fs, acc => ({ f with kids := f.kids ++ [n] } :: fs, acc)

/-- Does the open-element stack contain a tag of this name? -/
def stackHas (name : S) : List Frame → Bool
  | [] => false
  | f :: fs => f.tag = name || stackHas name fs

/-- Pop frames carrying the just-completed node `n` downward: once `matched`
holds the node is attached to the new top (or the root) and popping stops;
otherwise the next frame is completed around it and popping continues. -/
def closeFramesGo (name : S) (n : Node) (matched : Bool) :
    List Frame → List Node → List Frame × List Node
  | [], acc => ([], acc ++ [n])
  | g :: gs, acc =>
    if matched then ({ g with kids := g.kids ++ [n] } :: gs, acc)
    else
      closeFramesGo name (.elem g.tag g.attrs (NL.ofList (g.kids ++ [n])))
        (g.tag = name) gs acc

/-- Close open elements up to and including the nearest one named `name`
(BeautifulSoup's `_popToTag` when a match exists). -/
def closeUpTo (name : S) : List Frame → List Node → List Frame × List Node
  | [], acc => ([], acc)
  | f :: fs, acc =>
    closeFramesGo name (.elem f.tag f.attrs (NL.ofList f.kids)) (f.tag = name) fs acc

/-- Fold a completed node into all remaining frames (end of input). -/
def closeAllGo (n : Node) : List Frame → List Node → List Node
  | [], acc => acc ++ [n]
  | g :: gs, acc =>
    closeAllGo (.elem g.tag g.attrs (NL.ofList (g.kids ++ [n]))) gs acc

/-- Close every open element (end of input, or an end tag with no matching
open tag — `_popToTag` pops the whole stack in that case). -/
def closeAllFrames : List Frame → List Node → List Node
  | [], acc => acc
  | f :: fs, acc => closeAllGo (.elem f.tag f.attrs (NL.ofList f.kids)) fs acc

/-- One builder transition on one token. -/
def buildStep (st : List Frame × List Node) (t : Tok) : List Frame × List Node :=
  match t with
  | .txt s => pushNode (.txt s) st.1 st.2
  | .opn name attrs sc =>
    if sc || memS name voidTags then pushNode (.elem name attrs .nil) st.1 st.2
    else (⟨name, attrs, []⟩ :: st.1, st.2)
  | .cls name =>
    if stackHas name st.1 then closeUpTo name st.1 st.2
    else if st.1.isEmpty then st
    else ([], closeAllFrames st.1 st.2)

/-- Build the node sequence for a token stream. -/
def buildToks (toks : List Tok) : List Node :=
  let (fs, acc) := toks.foldl buildStep ([], [])
  closeAllFrames fs acc

/-- `BeautifulSoup(s, "html.parser").contents`: lex then build. -/
def parseHtml (s : S) : List Node := buildToks (lexHtml s)

-- First element named `name` in pre-order (`soup.find(name)`).
mutual
/-- Pre-order search for tag `name` in one node. -/
def findTagN (name : S) : Node → Option Node
  | .txt _ => none
  | .elem t a cs => if t = name then some (.elem t a cs) else findTagL name cs
def findTagL (name : S) : NodeList → Option Node
  | .nil => none
  | .cons n ns =>
    match findTagN name n with
    | some r => some r
    | none => findTagL name ns
end

/-- Pre-order search over a node sequence (`soup.find(name)` on the root). -/
def findTag (name : S) (ns : List Node) : Option Node :=
  match ns with
  | [] => none
  | n :: rest =>
    match findTagN name n with
    | some r => some r
    | none => findTag name rest

/-- Minimal-formatter escaping of character data on output: `&`, `<`, `>`
become entities (bs4's default output formatter). -/
def escapeMinChar (c : Char) : S :=
  if c = '&' then "&amp;".data
  else if c = '<' then "&lt;".data
  else if c = '>' then "&gt;".data
  else [c]

/-- Escape character data for serialization. -/
def escapeMin (s : S) : S := s.foldr (fun c acc => escapeMinChar c ++ acc) []

/-- Escape an attribute value for serialization (data escaping plus the
double quote, since values are emitted double-quoted). -/
def escapeAttrV (s : S) : S :=
  s.foldr (fun c acc => (if c = quoteC then "&quot;".data else escapeMinChar c) ++ acc) []

/-- Render an attribute list: ` name="value"` for each attribute, in
insertion order. -/
def renderAttrs : List (S × S) → S
  | [] => []
  | (k, v) :: rest => ' ' :: k ++ '=' :: quoteC :: escapeAttrV v ++ quoteC :: renderAttrs rest

-- Serialize a tree back to markup text (`str(soup)`): void elements with
-- no children render as `<tag …/>`, all others as `<tag …>…</tag>`.
mutual
/-- Serialize one node. -/
def renderN : Node → S
  | .txt s => escapeMin s
  | .elem t a cs =>
    if memS t voidTags && cs = .nil then
      '<' :: t ++ renderAttrs a ++ '/' :: '>' :: []
    else
      '<' :: t ++ renderAttrs a ++ '>' :: renderL cs ++ '<' :: '/' :: t ++ '>' :: []
/-- Serialize a node sequence inside an element. -/
def renderL : NodeList → S
  | .nil => []
  | .cons n ns => renderN n ++ renderL ns
end

/-- Serialize a node sequence. -/
def renderNodes (ns : List Node) : S :=
  match ns with
  | [] => []
  | n :: rest => renderN n ++ renderNodes rest

/-!
## `process_loads`

The transclusion resolver (`autoreveal.py`, lines 150–275).  A filesystem is
an association list from path to file text; `os.path.exists` is key
membership.  One pass consists of the `data-load` loop followed by the
`data-load-code` loop; if either made a change the whole function recurses.
The loops run over a snapshot of the tree taken when the loop starts, so a
pass never descends into children it has just spliced in; the model mirrors
this by not recursing into the replacement children of a resolved element.
-/

/-- A filesystem: path to file text. -/
abbrev FS := List (S × S)

/-- `os.path.exists` + `open(...).read()` combined: the file's text if the
path exists. -/
def fsRead (fs : FS) (p : S) : Option S := lookupS fs p

/-- `elem.get(name)`: first binding of an attribute. -/
def getAttr (a : List (S × S)) (k : S) : Option S := lookupS a k

/-- `del elem[name]`: drop an attribute. -/
def removeAttr (a : List (S × S)) (k : S) : List (S × S) :=
  a.filter (fun kv => kv.1 ≠ k)

/-- `elem[name] = value`: replace in place if present, else append. -/
def setAttr (a : List (S × S)) (k v : S) : List (S × S) :=
  if (lookupS a k).isSome then a.map (fun kv => if kv.1 = k then (k, v) else kv)
  else a ++ [(k, v)]

/-- The literal opening of the Mermaid wrapper built at line 227. -/
def diagramSpanOpen : S := "<span class=\"diagram-data\" style=\"display: none\">".data

/-- The literal tail of the Mermaid wrapper. -/
def diagramTail : S := "</span><div class=\"diagram-display\"></div>".data

/-- The `data-load` (smart mode) resolution of one element: `some` of the
rebuilt element when the directive fires (attribute present and nonempty,
file exists, extension `.html` or `.mermaid` after lowercasing), `none`
otherwise — including the `else: pass` branch for every other extension,
which changes nothing. -/
def smartResolve (fs : FS) (base tag : S) (attrs : List (S × S)) : Option Node :=
  match getAttr attrs "data-load".data with
  | none => none
  | some p =>
    if p = [] then none
    else
      match fsRead fs (path_join base p) with
      | none => none
      | some content =>
        let ext := lowerS (splitext_ext p)
        if ext = ".html".data then
          let rewritten := rewriteRefs (dirNameS p) content
          let parsed := parseHtml rewritten
          let kids : NodeList :=
            match findTag "body".data parsed with
            | some (.elem _ _ cs) => cs
            | _ => NL.ofList parsed
          some (.elem tag (removeAttr attrs "data-load".data) kids)
        else if ext = ".mermaid".data then
          let dhtml := diagramSpanOpen ++ content ++ diagramTail
          some (.elem tag (removeAttr attrs "data-load".data) (NL.ofList (parseHtml dhtml)))
        else none

-- Copy attributes onto the first `code` element in pre-order
-- (`code_soup.find("code")` followed by item assignment).
mutual
/-- Set `extra` on the first `code` element within one node. -/
def addCodeAttrsN (extra : List (S × S)) : Node → Node × Bool
  | .txt s => (.txt s, false)
  | .elem t a cs =>
    if t = "code".data then
      (.elem t (extra.foldl (fun acc kv => setAttr acc kv.1 kv.2) a) cs, true)
    else
      let (cs', b) := addCodeAttrsL extra cs
      (.elem t a cs', b)
/-- Set `extra` on the first `code` element within a node sequence. -/
def addCodeAttrsL (extra : List (S × S)) : NodeList → NodeList × Bool
  | .nil => (.nil, false)
  | .cons n ns =>
    let (n', b) := addCodeAttrsN extra n
    if b then (.cons n' ns, true)
    else
      let (ns', b') := addCodeAttrsL extra ns
      (.cons n ns', b')
end

/-- Top-level attribute copy over the parsed code fragment. -/
def addCodeAttrs (extra : List (S × S)) (ns : List Node) : List Node :=
  match ns with
  | [] => []
  | n :: rest =>
    let (n', b) := addCodeAttrsN extra n
    if b then n' :: rest else n :: addCodeAttrs extra rest

/-- The `data-load-code` (forced code mode) resolution of one element:
`some` of the rebuilt element when the directive fires (attribute present
and nonempty, file exists), wrapping the escaped text in
`<pre><code class="language-…">` and copying every other `data-*` attribute
of the host onto the `code` element; `none` otherwise. -/
def codeResolve (fs : FS) (base tag : S) (attrs : List (S × S)) : Option Node :=
  match getAttr attrs "data-load-code".data with
  | none => none
  | some p =>
    if p = [] then none
    else
      match fsRead fs (path_join base p) with
      | none => none
      | some content =>
        let ext := lowerS (splitext_ext p)
        let lang := langFor ext
        let code_content :=
          "<pre><code class=\"language-".data ++ lang ++ quoteC :: '>' ::
            (html_escape content ++ "</code></pre>".data)
        let code_soup := parseHtml code_content
        let extra := attrs.filter
          (fun kv => "data-".data.isPrefixOf kv.1 && kv.1 ≠ "data-load-code".data)
        let new_kids := addCodeAttrs extra code_soup
        some (.elem tag (removeAttr attrs "data-load-code".data) (NL.ofList new_kids))

-- The `data-load` loop of one pass (lines 175–236).
mutual
/-- `data-load` loop on one node. -/
def passLoadN (fs : FS) (base : S) : Node → Node × Bool
  | .txt s => (.txt s, false)
  | .elem t a cs =>
    match smartResolve fs base t a with
    | some n => (n, true)
    | none =>
      let (cs', c) := passLoadL fs base cs
      (.elem t a cs', c)
/-- `data-load` loop on a node sequence. -/
def passLoadL (fs : FS) (base : S) : NodeList → NodeList × Bool
  | .nil => (.nil, false)
  | .cons n ns =>
    let (n', c1) := passLoadN fs base n
    let (ns', c2) := passLoadL fs base ns
    (.cons n' ns', c1 || c2)
end

-- The `data-load-code` loop of one pass (lines 239–271).
mutual
/-- `data-load-code` loop on one node. -/
def passCodeN (fs : FS) (base : S) : Node → Node × Bool
  | .txt s => (.txt s, false)
  | .elem t a cs =>
    match codeResolve fs base t a with
    | some n => (n, true)
    | none =>
      let (cs', c) := passCodeL fs base cs
      (.elem t a cs', c)
/-- `data-load-code` loop on a node sequence. -/
def passCodeL (fs : FS) (base : S) : NodeList → NodeList × Bool
  | .nil => (.nil, false)
  | .cons n ns =>
    let (n', c1) := passCodeN fs base n
    let (ns', c2) := passCodeL fs base ns
    (.cons n' ns', c1 || c2)
end

/-- One full scan of `process_loads`: the `data-load` loop, then the
`data-load-code` loop, plus the `changed` flag. -/
def onePass (fs : FS) (base : S) (ns : NodeList) : NodeList × Bool :=
  let (a, c1) := passLoadL fs base ns
  let (b, c2) := passCodeL fs base a
  (b, c1 || c2)

/-- `process_loads`: repeat full passes while a pass reports a change.  The
source recurses unboundedly (a cyclic transclusion chain would never stop);
`fuel` bounds the recursion in the model.  The second component counts the
passes taken. -/
def process_loads (fs : FS) (base : S) : Nat → NodeList → NodeList × Nat
  | 0, ns => (ns, 0)
  | fuel + 1, ns =>
    let (b, changed) := onePass fs base ns
    if changed then
      let (r, k) := process_loads fs base fuel b
      (r, k + 1)
    else (b, 1)

-- Does the tree still contain a load directive?
mutual
/-- A `data-load` or `data-load-code` attribute within one node. -/
def hasDirN : Node → Bool
  | .txt _ => false
  | .elem _ a cs =>
    (getAttr a "data-load".data).isSome || (getAttr a "data-load-code".data).isSome
      || hasDirL cs
/-- A load directive within a node sequence. -/
def hasDirL : NodeList → Bool
  | .nil => false
  | .cons n ns => hasDirN n || hasDirL ns
end

/-!
## `build_slides`

The assembly pipeline (lines 278–375): sort the slide folders, process each
folder's `index.html` (path rewrites, parse, `process_loads`, serialize),
concatenate, substitute into the template's empty `.slides` container and
report `len(subfolders)`.  Live-reload script injection (lines 367–369) is
exercised with `enable_live_reload=False` by every claim here and is omitted
from the model.
-/

/-- The container-opening literal of the substitution pattern
`(<div class="slides">)\s*</div>` at line 361. -/
def slidesOpenTag : S := "<div class=\"slides\">".data

/-- The closing literal of the substitution pattern. -/
def slidesCloseTag : S := "</div>".data

/-- Does the pattern `(<div class="slides">)\s*</div>` match at the start of
`s`?  Greedy `\s*` backtracking is equivalent to skipping the maximal
whitespace run and requiring `</div>` right after. -/
def matchHere (s : S) : Bool :=
  slidesOpenTag.isPrefixOf s
    && slidesCloseTag.isPrefixOf ((s.drop slidesOpenTag.length).dropWhile isPSpace)

/-- The rest of the input after a match at the start of `s`. -/
def afterMatch (s : S) : S :=
  ((s.drop slidesOpenTag.length).dropWhile isPSpace).drop slidesCloseTag.length

/-- The `re.sub` scan of line 360: left to right, non-overlapping; the
replacement is the opening group, a newline, the slide markup, a newline and
`</div>`. -/
def subSlidesGo (slides : S) : Nat → S → S
  | 0, s => s
  | _ + 1, [] => []
  | fuel + 1, c :: cs =>
    if matchHere (c :: cs) then
      slidesOpenTag ++ '\n' :: slides ++ '\n' :: slidesCloseTag
        ++ subSlidesGo slides fuel (afterMatch (c :: cs))
    else c :: subSlidesGo slides fuel cs

/-- The slide-container substitution over a whole template. -/
def subSlides (base_content slides_content : S) : S :=
  subSlidesGo slides_content (base_content.length + 1) base_content

/-- Does the substitution pattern match anywhere in `s`? -/
def hasMarker : S → Bool
  | [] => false
  | c :: cs => matchHere (c :: cs) || hasMarker cs

/-- No match begins while the scan is still inside `p` (with `rest` the text
that follows `p`). -/
def scanClean : S → S → Bool
  | [], _ => true
  | c :: cs, rest => !matchHere (c :: cs ++ rest) && scanClean cs rest

/-- Lexicographic (code-point) order on strings, as Python compares `str`. -/
def lexLe : S → S → Bool
  | [], _ => true
  | _ :: _, [] => false
  | c :: cs, d :: ds => if c = d then lexLe cs ds else decide (c < d)

/-- Insert into a sorted list. -/
def insertSorted (x : S) : List S → List S
  | [] => [x]
  | y :: ys => if lexLe x y then x :: y :: ys else y :: insertSorted x ys

/-- `sorted(...)` on folder names (insertion sort; the names of a directory
listing are distinct, so stability is immaterial). -/
def sortFolders : List S → List S
  | [] => []
  | x :: xs => insertSorted x (sortFolders xs)

/-- The result of one build: the written output text, the folder count the
final `print` reports (`len(subfolders)`, line 375), and the folders for
which the warning `index.html not found` was printed. -/
structure BuildResult where
  output : S
  reported : Nat
  warnings : List S
deriving DecidableEq

/-- Process one slide folder (lines 323–356): read `index.html` (else record
a warning and skip), apply the three `./`-reference rewrites with prefix
`<slides-dir-name>/<folder>`, parse, run `process_loads` with the build
root as base directory, serialize, and append to the accumulated markup. -/
def processFolder (fs : FS) (base_path slides_dir : S) (fuel : Nat)
    (st : S × List S) (folder : S) : S × List S :=
  let index_path := path_join (path_join slides_dir folder) "index.html".data
  match fsRead fs index_path with
  | none => (st.1, st.2 ++ [folder])
  | some slide_content =>
    let slides_dir_name := baseNameS slides_dir
    let rewritten := rewriteRefs (slides_dir_name ++ '/' :: folder) slide_content
    let soup := NL.ofList (parseHtml rewritten)
    let (soup2, _) := process_loads fs base_path fuel soup
    (st.1 ++ renderL soup2, st.2)

/-- `build_slides` with `enable_live_reload=False`: template in, output text,
reported count and warnings out.  `fuel` bounds `process_loads`. -/
def build_slides (fs : FS) (base_path slides_dir : S) (folders : List S)
    (base_content : S) (fuel : Nat) : BuildResult :=
  let subfolders := sortFolders folders
  let (slides_content, warnings) :=
    subfolders.foldl (processFolder fs base_path slides_dir fuel) ([], [])
  { output := subSlides base_content slides_content
    reported := subfolders.length
    warnings := warnings }

/-!
## The reload channel

The shared `threading.Event` (line 51), its producer `notify_reload`
(line 109: `reload_flag.set()`) and its consumer, the `/reload-check` branch
of `do_GET` (lines 130–144: read `is_set()`, clear when set, answer
`json.dumps({"reload": should_reload})`).  Handler invocations are modelled
as a sequence of events applied to the flag.
-/

/-- An event on the reload flag: a rebuild raising it, or one poll of the
`/reload-check` endpoint. -/
inductive Ev where
  | set : Ev
  | poll : Ev
deriving DecidableEq

/-- `json.dumps({"reload": b})`. -/
def jsonReload (b : Bool) : S :=
  if b then "\x7b\"reload\": true\x7d".data else "\x7b\"reload\": false\x7d".data

/-- One event: `set` raises the flag; `poll` reads it, clears it when set,
and responds with the JSON body for the value read. -/
def reloadStep (flag : Bool) : Ev → Bool × Option S
  | .set => (true, none)
  | .poll => (false, some (jsonReload flag))

/-- Run a sequence of events from a flag state, collecting the poll
responses in order. -/
def runReload (flag : Bool) : List Ev → Bool × List S
  | [] => (flag, [])
  | e :: es =>
    let (f', r) := reloadStep flag e
    let (fe, rs) := runReload f' es
    (fe, (match r with | some x => [x] | none => []) ++ rs)

/-!
## Concrete model inputs used by the claims
-/

/-- Substring test. -/
def containsS (needle : S) : S → Bool
  | [] => needle.isPrefixOf []
  | c :: cs => needle.isPrefixOf (c :: cs) || containsS needle cs

/-- A filesystem holding one Python file whose text contains a literal
`<script>` substring. -/
def fsPy : FS := [("snip.py".data, "print(1) # <script>".data)]

/-- A host element carrying a smart-load directive at that Python file. -/
def hostSmartPy : Node :=
  .elem "section".data [("data-load".data, "snip.py".data)] (.cons (.txt "old".data) .nil)

/-- A host element carrying a forced-code-load directive at the same file. -/
def hostCodePy : Node :=
  .elem "section".data [("data-load-code".data, "snip.py".data)] (.cons (.txt "old".data) .nil)

/-- The code block the forced-code mode produces for `snip.py`. -/
def codeBlockPy : Node :=
  .elem "section".data []
    (.cons (.elem "pre".data []
      (.cons (.elem "code".data [("class".data, "language-python".data)]
        (.cons (.txt "print(1) # <script>".data) .nil)) .nil)) .nil)

/-- A filesystem holding one Mermaid diagram file with the given text. -/
def fsMermaid (content : S) : FS := [("d.mermaid".data, content)]

/-- A host element carrying a smart-load directive at that diagram file. -/
def hostMermaid : Node :=
  .elem "div".data [("data-load".data, "d.mermaid".data)] .nil

/-- The filesystem of the nested-transclusion scenario: a slide folder
`demo` whose entry document loads `./frag.html`, which itself references
`./x.png`. -/
def fsDemo : FS :=
  [("slides/demo/index.html".data, "<section data-load=\"./frag.html\"></section>".data),
   ("slides/demo/frag.html".data, "<img src=\"./x.png\">".data)]

/-- A template with an empty slide container. -/
def tmplDemo : S := "<html><body><div class=\"slides\"> </div></body></html>".data

/-- The filesystem of the missing-entry-document scenario: folder `b` has an
entry document, folder `a` does not. -/
def fsTwoFolders : FS := [("slides/b/index.html".data, "<section>B</section>".data)]

/-- A filesystem holding equal content under upper- and lower-case
extensions, for the case-insensitivity scenario. -/
def fsCase : FS :=
  [("page.HTML".data, "<p>hi</p>".data), ("page.html".data, "<p>hi</p>".data),
   ("prog.PY".data, "x = 1".data), ("prog.py".data, "x = 1".data)]

/-- A host with a smart-load directive at the given target path. -/
def hostLoad (p : S) : Node := .elem "div".data [("data-load".data, p)] .nil

/-- A host with a forced-code-load directive at the given target path. -/
def hostLoadCode (p : S) : Node := .elem "div".data [("data-load-code".data, p)] .nil

/-!
## Lemmas: a pass that reports no change leaves the tree untouched

Every branch of either loop that modifies an element also sets `changed`,
so `changed = false` forces the scan to have been a pure traversal.
-/

mutual
/-- If the `data-load` loop reports no change on a node, the node is
returned as it was. -/
theorem passLoadN_unchanged (fs : FS) (base : S) :
    ∀ n : Node, (passLoadN fs base n).2 = false → (passLoadN fs base n).1 = n
  | .txt _, _ => rfl
  | .elem t a cs, h => by
    simp only [passLoadN] at h ⊢
    cases hr : smartResolve fs base t a with
    | some n' => simp [hr] at h
    | none =>
      simp only [hr] at h ⊢
      simpa using passLoadL_unchanged fs base cs (by simpa using h)
/-- If the `data-load` loop reports no change on a node sequence, the
sequence is returned as it was. -/
theorem passLoadL_unchanged (fs : FS) (base : S) :
    ∀ ns : NodeList, (passLoadL fs base ns).2 = false → (passLoadL fs base ns).1 = ns
  | .nil, _ => rfl
  | .cons n ns, h => by
    simp only [passLoadL, Bool.or_eq_false_iff] at h ⊢
    rw [passLoadN_unchanged fs base n h.1, passLoadL_unchanged fs base ns h.2]
end

mutual
/-- If the `data-load-code` loop reports no change on a node, the node is
returned as it was. -/
theorem passCodeN_unchanged (fs : FS) (base : S) :
    ∀ n : Node, (passCodeN fs base n).2 = false → (passCodeN fs base n).1 = n
  | .txt _, _ => rfl
  | .elem t a cs, h => by
    simp only [passCodeN] at h ⊢
    cases hr : codeResolve fs base t a with
    | some n' => simp [hr] at h
    | none =>
      simp only [hr] at h ⊢
      simpa using passCodeL_unchanged fs base cs (by simpa using h)
/-- If the `data-load-code` loop reports no change on a node sequence, the
sequence is returned as it was. -/
theorem passCodeL_unchanged (fs : FS) (base : S) :
    ∀ ns : NodeList, (passCodeL fs base ns).2 = false → (passCodeL fs base ns).1 = ns
  | .nil, _ => rfl
  | .cons n ns, h => by
    simp only [passCodeL, Bool.or_eq_false_iff] at h ⊢
    rw [passCodeN_unchanged fs base n h.1, passCodeL_unchanged fs base ns h.2]
end

/-- A full pass that reports no change returns the tree it was given. -/
theorem onePass_unchanged (fs : FS) (base : S) (ns : NodeList)
    (h : (onePass fs base ns).2 = false) : (onePass fs base ns).1 = ns := by
  simp only [onePass, Bool.or_eq_false_iff] at h ⊢
  rw [passCodeL_unchanged fs base _ h.2, passLoadL_unchanged fs base ns h.1]

/-!
## The claims
-/

/-- C1 (code_bug evaluation): on a filesystem holding `snip.py` (text
`print(1) # <script>`), a smart-load (`data-load`) directive at the file is
left completely untouched — contents and directive attribute preserved,
one pass, no code block — because the smart loop's non-HTML, non-Mermaid
branch is `else: pass` (lines 235–236); while the forced-code-load
(`data-load-code`) directive at the same file does produce the escaped code
block tagged `python` and drops its attribute, as the claim describes for
both modes. -/
theorem claim1_smart_load_other_ext_is_noop :
    process_loads fsPy [] 5 (.cons hostSmartPy .nil) = (.cons hostSmartPy .nil, 1)
      ∧ hasDirL (.cons hostSmartPy .nil) = true
      ∧ process_loads fsPy [] 5 (.cons hostCodePy .nil) = (.cons codeBlockPy .nil, 2)
      ∧ renderL (process_loads fsPy [] 5 (.cons hostCodePy .nil)).1 =
          "<section><pre><code class=\"language-python\">print(1) # &lt;script&gt;</code></pre></section>".data := by
  refine ⟨by decide, by decide, by decide, by decide⟩

/-- C4 (code_bug evaluation): a tree holding a smart-load directive at an
existing `.py` file is already at the resolver's fixed point — the single
verification pass reports no change and `process_loads` stops — yet the
fixed-point tree still carries the `data-load` attribute, contradicting the
no-directives-at-fixed-point invariant. -/
theorem claim4_fixed_point_keeps_directive :
    (onePass fsPy [] (.cons hostSmartPy .nil)).2 = false
      ∧ process_loads fsPy [] 9 (.cons hostSmartPy .nil) = (.cons hostSmartPy .nil, 1)
      ∧ hasDirL (.cons hostSmartPy .nil) = true
      ∧ (fsRead fsPy "snip.py".data).isSome = true := by
  refine ⟨by decide, by decide, by decide, by decide⟩

/-- C9 (confirmed): extension dispatch lowercases the extension first —
a smart-load target `page.HTML` resolves to exactly the tree that
`page.html` (same content) resolves to, inlined as markup; and a
forced-code target `prog.PY` resolves to exactly the tree `prog.py`
resolves to, a code block tagged `language-python`. -/
theorem claim9_extension_dispatch_case_insensitive :
    process_loads fsCase [] 5 (.cons (hostLoad "page.HTML".data) .nil)
        = process_loads fsCase [] 5 (.cons (hostLoad "page.html".data) .nil)
      ∧ process_loads fsCase [] 5 (.cons (hostLoad "page.HTML".data) .nil)
          = (.cons (.elem "div".data []
              (.cons (.elem "p".data [] (.cons (.txt "hi".data) .nil)) .nil)) .nil, 2)
      ∧ process_loads fsCase [] 5 (.cons (hostLoadCode "prog.PY".data) .nil)
          = process_loads fsCase [] 5 (.cons (hostLoadCode "prog.py".data) .nil)
      ∧ process_loads fsCase [] 5 (.cons (hostLoadCode "prog.PY".data) .nil)
          = (.cons (.elem "div".data []
              (.cons (.elem "pre".data []
                (.cons (.elem "code".data [("class".data, "language-python".data)]
                  (.cons (.txt "x = 1".data) .nil)) .nil)) .nil)) .nil, 2) := by
  refine ⟨by decide, by decide, by decide, by decide⟩

/-- C2 (counterexample): in the `demo` scenario the assembled output does
not contain `src="demo/x.png"` — the folder-level rewrite prefixes the
slides-root name as well, so the path that appears is
`slides/demo/x.png`. -/
theorem claim2_counterexample :
    containsS "src=\"demo/x.png\"".data
      (build_slides fsDemo [] "slides".data ["demo".data] tmplDemo 5).output = false := by
  decide

/-- C2 (amended): the `demo` scenario yields exactly one rewrite with prefix
`<slides-root-name>/<folder>`: the output is the template with the fragment
inlined and `src="slides/demo/x.png"` — neither `./x.png` nor any
double-prefixed path survives. -/
theorem claim2_amended_nested_path_rewrite :
    (build_slides fsDemo [] "slides".data ["demo".data] tmplDemo 5).output =
      "<html><body><div class=\"slides\">\n<section><img src=\"slides/demo/x.png\"/></section>\n</div></body></html>".data
      ∧ containsS "src=\"slides/demo/x.png\"".data
          (build_slides fsDemo [] "slides".data ["demo".data] tmplDemo 5).output = true
      ∧ containsS "src=\"./x.png\"".data
          (build_slides fsDemo [] "slides".data ["demo".data] tmplDemo 5).output = false
      ∧ containsS "slides/demo/slides/demo".data
          (build_slides fsDemo [] "slides".data ["demo".data] tmplDemo 5).output = false := by
  refine ⟨by decide, by decide, by decide, by decide⟩

/-- Inserting into a sorted list adds one element. -/
theorem length_insertSorted (x : S) : ∀ l : List S, (insertSorted x l).length = l.length + 1
  | [] => rfl
  | y :: ys => by
    simp only [insertSorted]
    split
    · simp
    · simp [length_insertSorted x ys]

/-- Sorting preserves the number of folders. -/
theorem length_sortFolders : ∀ l : List S, (sortFolders l).length = l.length
  | [] => rfl
  | x :: xs => by simp [sortFolders, length_insertSorted, length_sortFolders xs]

/-- The folder fold records exactly the folders whose entry document is
missing as warnings, in order, and continues past them. -/
theorem foldl_processFolder_warnings (fs : FS) (bp sd : S) (fuel : Nat) :
    ∀ (l : List S) (s0 : S) (w0 : List S),
      (l.foldl (processFolder fs bp sd fuel) (s0, w0)).2 =
        w0 ++ l.filter
          (fun f => (fsRead fs (path_join (path_join sd f) "index.html".data)).isNone)
  | [], _, _ => by simp
  | f :: l, s0, w0 => by
    simp only [List.foldl_cons, List.filter_cons]
    cases hf : fsRead fs (path_join (path_join sd f) "index.html".data) with
    | none =>
      simp only [processFolder, hf, Option.isNone_none, if_pos]
      rw [foldl_processFolder_warnings fs bp sd fuel l s0 (w0 ++ [f])]
      simp
    | some content =>
      simp only [processFolder, hf, Option.isNone_some]
      rw [foldl_processFolder_warnings fs bp sd fuel l _ w0]
      simp

/-- C3 (amended): the folder count the build reports is the total number of
subfolders of the slides root — including skipped ones — and each subfolder
whose entry document is missing is recorded with a warning while the fold
continues over the remaining folders. -/
theorem claim3_amended_reported_is_total_count (fs : FS) (bp sd : S)
    (folders : List S) (tmpl : S) (fuel : Nat) :
    (build_slides fs bp sd folders tmpl fuel).reported = folders.length
      ∧ (build_slides fs bp sd folders tmpl fuel).warnings =
          (sortFolders folders).filter
            (fun f => (fsRead fs (path_join (path_join sd f) "index.html".data)).isNone) := by
  constructor
  · simp [build_slides, length_sortFolders]
  · simp [build_slides, foldl_processFolder_warnings]

/-- C3 (counterexample): with folders `a` and `b` where only `b` has an
entry document, exactly one folder is processed (with a warning for `a`,
and `b`'s content still assembled), yet the reported count is 2, the total
subfolder count — not 1 as the claim requires. -/
theorem claim3_counterexample :
    (build_slides fsTwoFolders [] "slides".data ["a".data, "b".data] tmplDemo 5).reported = 2
      ∧ (build_slides fsTwoFolders [] "slides".data ["a".data, "b".data] tmplDemo 5).warnings
          = ["a".data]
      ∧ ((sortFolders ["a".data, "b".data]).filter
          (fun f => (fsRead fsTwoFolders
            (path_join (path_join "slides".data f) "index.html".data)).isSome)).length = 1
      ∧ containsS "<section>B</section>".data
          (build_slides fsTwoFolders [] "slides".data ["a".data, "b".data] tmplDemo 5).output = true
      ∧ (build_slides fsTwoFolders [] "slides".data ["a".data, "b".data] tmplDemo 5).reported ≠ 1 := by
  refine ⟨by decide, by decide, by decide, by decide, by decide⟩

/-- The two-sibling structure the specification promises for a resolved
diagram directive: a hidden node holding exactly the source text, next to an
empty render-target node. -/
def mermaidWrap (content : S) : NodeList :=
  .cons (.elem "span".data
      [("class".data, "diagram-data".data), ("style".data, "display: none".data)]
      (.cons (.txt content) .nil))
    (.cons (.elem "div".data [("class".data, "diagram-display".data)] .nil) .nil)

/-- C5 (counterexample): a `.mermaid` file whose text is `a</span>b`
resolves to three children — the hidden node keeps only `a`, `b` escapes as
a loose sibling string — because the source text is spliced into a markup
string and re-parsed, so markup-significant characters are not preserved
verbatim; the claimed two-sibling shape with the exact text fails. -/
theorem claim5_counterexample :
    process_loads (fsMermaid "a</span>b".data) [] 5 (.cons hostMermaid .nil)
        = (.cons (.elem "div".data []
            (.cons (.elem "span".data
                [("class".data, "diagram-data".data), ("style".data, "display: none".data)]
                (.cons (.txt "a".data) .nil))
              (.cons (.txt "b".data)
                (.cons (.elem "div".data [("class".data, "diagram-display".data)] .nil) .nil)))) .nil, 2)
      ∧ (process_loads (fsMermaid "a</span>b".data) [] 5 (.cons hostMermaid .nil)).1
          ≠ .cons (.elem "div".data [] (mermaidWrap "a</span>b".data)) .nil := by
  refine ⟨by decide, by decide⟩

/-- C7 (confirmed): on a tree already at the resolver's fixed point — one
whose verification pass reports no change — `process_loads` returns the
tree unchanged after exactly that single scan (count 1, so no recursive
re-scan is triggered), and its serialization is byte-identical. -/
theorem claim7_resolution_idempotent (fs : FS) (base : S) (ns : NodeList) (fuel : Nat)
    (h : (onePass fs base ns).2 = false) :
    process_loads fs base (fuel + 1) ns = (ns, 1)
      ∧ renderL (process_loads fs base (fuel + 1) ns).1 = renderL ns := by
  have hp : onePass fs base ns = (ns, false) := by
    have h1 := onePass_unchanged fs base ns h
    calc onePass fs base ns = ((onePass fs base ns).1, (onePass fs base ns).2) := rfl
      _ = (ns, false) := by rw [h1, h]
  have : process_loads fs base (fuel + 1) ns = (ns, 1) := by
    simp [process_loads, hp]
  exact ⟨this, by rw [this]⟩

/-- Witness for C7: a concrete fully resolved tree (a code block) passes the
fixed-point test and is returned unchanged with pass count 1. -/
theorem claim7_witness :
    (onePass fsPy [] (.cons codeBlockPy .nil)).2 = false
      ∧ process_loads fsPy [] 4 (.cons codeBlockPy .nil) = (.cons codeBlockPy .nil, 1) :=
  ⟨by decide, (claim7_resolution_idempotent fsPy [] (.cons codeBlockPy .nil) 3 (by decide)).1⟩

/-!
## Lemmas for the reload channel
-/

/-- Running an event list in two halves. -/
theorem runReload_append (f : Bool) :
    ∀ xs ys : List Ev,
      runReload f (xs ++ ys) =
        ((runReload (runReload f xs).1 ys).1,
          (runReload f xs).2 ++ (runReload (runReload f xs).1 ys).2)
  | [], ys => by simp [runReload]
  | x :: xs, ys => by
    cases x with
    | set =>
      simp only [List.cons_append, runReload, reloadStep, List.append_eq]
      rw [runReload_append true xs ys]
      simp
    | poll =>
      simp only [List.cons_append, runReload, reloadStep, List.append_eq]
      rw [runReload_append false xs ys]
      simp

/-- With the flag raised and no poll arriving, the flag stays raised and no
response is produced. -/
theorem runReload_no_poll :
    ∀ mid : List Ev, Ev.poll ∉ mid → runReload true mid = (true, [])
  | [], _ => rfl
  | e :: es, h => by
    cases e with
    | set =>
      have := runReload_no_poll es (by simp_all)
      simp [runReload, reloadStep, this]
    | poll => simp at h

/-- With the flag cleared and no set arriving, every poll answers `false`. -/
theorem runReload_no_set :
    ∀ post : List Ev, Ev.set ∉ post →
      runReload false post = (false, List.replicate (post.count Ev.poll) (jsonReload false))
  | [], _ => rfl
  | e :: es, h => by
    cases e with
    | poll =>
      have := runReload_no_set es (by simp_all)
      simp [runReload, reloadStep, this, List.count_cons, List.replicate_succ]
    | set => simp at h

/-- The two JSON bodies differ. -/
theorem jsonReload_ne : jsonReload true ≠ jsonReload false := by decide

/-- The two flag events differ. -/
theorem ev_set_ne_poll : Ev.set ≠ Ev.poll := by decide

/-- Each raised signal is answered `true` at most once: the strengthened
count bound over any event list. -/
theorem runReload_true_count :
    ∀ (evs : List Ev) (b : Bool),
      ((runReload b evs).2.count (jsonReload true)) ≤ evs.count Ev.set + b.toNat
  | [], b => by simp [runReload]
  | e :: es, b => by
    cases e with
    | set =>
      have ih := runReload_true_count es true
      simp only [Bool.toNat_true] at ih
      simp only [runReload, reloadStep, List.nil_append, List.count_cons_self]
      omega
    | poll =>
      have ih := runReload_true_count es false
      simp only [Bool.toNat_false, Nat.add_zero] at ih
      simp only [runReload, reloadStep, List.singleton_append,
        List.count_cons_of_ne ev_set_ne_poll]
      cases b with
      | true =>
        simp only [Bool.toNat_true, List.count_cons_self]
        omega
      | false =>
        simp only [Bool.toNat_false, Nat.add_zero,
          List.count_cons_of_ne jsonReload_ne]
        omega

/-- C6 (confirmed): over any serialized sequence of flag events, (a) after a
set, the first poll — with no earlier poll intervening — answers the JSON
body for `true` and leaves the flag cleared; (b) once a poll has consumed
the flag, every later poll answers the body for `false` until another set;
(c) globally, the number of `true` answers never exceeds the number of
sets, so each raised signal is observed as `true` by exactly one poll. -/
theorem claim6_reload_signal_semantics :
    (∀ pre mid : List Ev, Ev.poll ∉ mid →
       runReload false (pre ++ Ev.set :: (mid ++ [Ev.poll]))
         = (false, (runReload false pre).2 ++ [jsonReload true]))
      ∧ (∀ pre post : List Ev, Ev.set ∉ post →
         runReload false (pre ++ Ev.poll :: post)
           = (false, (runReload false pre).2
               ++ jsonReload (runReload false pre).1
                 :: List.replicate (post.count Ev.poll) (jsonReload false)))
      ∧ (∀ evs : List Ev,
         ((runReload false evs).2.count (jsonReload true)) ≤ evs.count Ev.set) := by
  refine ⟨?_, ?_, ?_⟩
  · intro pre mid hmid
    rw [runReload_append]
    have h2 : runReload (runReload false pre).1 (Ev.set :: (mid ++ [Ev.poll]))
        = (false, [jsonReload true]) := by
      simp only [runReload, reloadStep]
      rw [runReload_append, runReload_no_poll mid hmid]
      simp [runReload, reloadStep]
    rw [h2]
  · intro pre post hpost
    rw [runReload_append]
    have h2 : runReload (runReload false pre).1 (Ev.poll :: post)
        = (false, jsonReload (runReload false pre).1
            :: List.replicate (post.count Ev.poll) (jsonReload false)) := by
      simp only [runReload, reloadStep]
      rw [runReload_no_set post hpost]
      simp
    rw [h2]
  · intro evs
    have h := runReload_true_count evs false
    simpa using h

/-- Witness for C6: concrete traces — a set followed by three polls yields
`true` then `false` then `false`, and that trace contains exactly one
`true` answer for its one set. -/
theorem claim6_witness :
    runReload false [Ev.set, Ev.poll] = (false, [jsonReload true])
      ∧ runReload false [Ev.set, Ev.poll, Ev.poll, Ev.poll]
          = (false, [jsonReload true, jsonReload false, jsonReload false])
      ∧ ((runReload false [Ev.set, Ev.poll, Ev.poll, Ev.poll]).2.count (jsonReload true))
          ≤ [Ev.set, Ev.poll, Ev.poll, Ev.poll].count Ev.set := by
  refine ⟨?_, ?_, ?_⟩
  · exact claim6_reload_signal_semantics.1 [] [] (by simp)
  · exact claim6_reload_signal_semantics.2.1 [Ev.set] [Ev.poll, Ev.poll] (by simp)
  · exact claim6_reload_signal_semantics.2.2 [Ev.set, Ev.poll, Ev.poll, Ev.poll]

/-!
## Lemmas for the slide-container substitution
-/

/-- A list is a `isPrefixOf` of itself followed by anything. -/
theorem isPrefixOf_append_self : ∀ a b : S, a.isPrefixOf (a ++ b) = true
  | [], _ => by simp [List.isPrefixOf]
  | c :: cs, b => by simp [List.isPrefixOf, isPrefixOf_append_self cs b]

/-- Dropping a satisfying run continues past it. -/
theorem dropWhile_append_all (p : Char → Bool) :
    ∀ ws r : S, ws.all p = true → (ws ++ r).dropWhile p = r.dropWhile p
  | [], _, _ => by simp
  | c :: ws', r, h => by
    simp only [List.all_cons, Bool.and_eq_true] at h
    simp only [List.cons_append, List.dropWhile_cons, h.1, if_true]
    exact dropWhile_append_all p ws' r h.2

/-- The close literal starts with a non-whitespace character. -/
theorem dropWhile_close (s : S) :
    (slidesCloseTag ++ s).dropWhile isPSpace = slidesCloseTag ++ s := by
  have e : slidesCloseTag = '<' :: "/div>".data := by decide
  rw [e]
  simp only [List.cons_append, List.dropWhile_cons,
    (by decide : isPSpace '<' = false), Bool.false_eq_true, if_false]

/-- The substitution pattern matches at an empty container: the open
literal, any whitespace run, then the close literal. -/
theorem matchHere_marker (ws s : S) (hws : ws.all isPSpace = true) :
    matchHere (slidesOpenTag ++ (ws ++ (slidesCloseTag ++ s))) = true := by
  simp only [matchHere, isPrefixOf_append_self, List.drop_left, Bool.true_and]
  rw [dropWhile_append_all isPSpace ws _ hws, dropWhile_close]
  exact isPrefixOf_append_self _ _

/-- What follows a match at an empty container is exactly the text after
the close literal. -/
theorem afterMatch_marker (ws s : S) (hws : ws.all isPSpace = true) :
    afterMatch (slidesOpenTag ++ (ws ++ (slidesCloseTag ++ s))) = s := by
  simp only [afterMatch, List.drop_left]
  rw [dropWhile_append_all isPSpace ws _ hws, dropWhile_close]
  exact List.drop_left _ _

/-- A scan over marker-free text copies it unchanged. -/
theorem subSlidesGo_no_marker (slides : S) :
    ∀ (fuel : Nat) (s : S), hasMarker s = false → s.length ≤ fuel →
      subSlidesGo slides fuel s = s
  | 0, s, _, _ => rfl
  | _ + 1, [], _, _ => rfl
  | fuel + 1, c :: cs, hm, hl => by
    simp only [hasMarker, Bool.or_eq_false_iff] at hm
    simp only [subSlidesGo, hm.1, Bool.false_eq_true, if_false]
    rw [subSlidesGo_no_marker slides fuel cs hm.2 (by simp at hl; omega)]

/-- The substitution over a whole marker-free template is the identity. -/
theorem subSlides_no_marker (tmpl slides : S) (h : hasMarker tmpl = false) :
    subSlides tmpl slides = tmpl :=
  subSlidesGo_no_marker slides (tmpl.length + 1) tmpl h (by omega)

/-- While no match begins inside `p`, the scan copies `p` through and
continues on `rest` with the corresponding fuel. -/
theorem subSlidesGo_copy (slides : S) :
    ∀ (p rest : S) (k : Nat), scanClean p rest = true →
      subSlidesGo slides (p.length + k) (p ++ rest) = p ++ subSlidesGo slides k rest
  | [], rest, k, _ => by simp
  | c :: p', rest, k, h => by
    simp only [scanClean, Bool.and_eq_true, Bool.not_eq_true'] at h
    have hlen : (c :: p').length + k = (p'.length + k) + 1 := by
      simp only [List.length_cons]
      omega
    rw [hlen]
    have hfalse : matchHere (c :: (p' ++ rest)) = false := h.1
    simp only [List.cons_append, List.append_eq, subSlidesGo,
      subSlidesGo_copy slides p' rest k h.2, hfalse, Bool.false_eq_true, if_false]

/-- At a matching position the scan emits the replacement and continues
after the match. -/
theorem subSlidesGo_match (slides : S) (fuel : Nat) :
    ∀ s : S, matchHere s = true →
      subSlidesGo slides (fuel + 1) s
        = slidesOpenTag ++ '\n' :: slides ++ '\n' :: slidesCloseTag
            ++ subSlidesGo slides fuel (afterMatch s)
  | [], h => absurd h (by decide)
  | c :: cs, h => by simp [subSlidesGo, h]

/-- C8 (confirmed): (a) when the template contains no empty slide-container
marker, the build with live-reload injection disabled writes the template
text back unchanged (the substitution silently has no effect and nothing is
raised — the model is total); (b) when the marker is present, the output is
the template with only the marker's whitespace contents replaced by the
slide markup: every byte before the opening literal, the two literals
themselves and every byte after the close literal are untouched. -/
theorem claim8_missing_marker_silent_noop :
    (∀ (fs : FS) (bp sd : S) (folders : List S) (tmpl : S) (fuel : Nat),
       hasMarker tmpl = false → (build_slides fs bp sd folders tmpl fuel).output = tmpl)
      ∧ (∀ slides p ws s : S, ws.all isPSpace = true →
         scanClean p (slidesOpenTag ++ (ws ++ (slidesCloseTag ++ s))) = true →
         hasMarker s = false →
         subSlides (p ++ (slidesOpenTag ++ (ws ++ (slidesCloseTag ++ s)))) slides
           = p ++ (slidesOpenTag ++ ('\n' :: slides ++ '\n' :: (slidesCloseTag ++ s)))) := by
  constructor
  · intro fs bp sd folders tmpl fuel h
    simp only [build_slides]
    exact subSlides_no_marker tmpl _ h
  · intro slides p ws s hws hclean hs
    have hrest : (p ++ (slidesOpenTag ++ (ws ++ (slidesCloseTag ++ s)))).length + 1
        = p.length + ((slidesOpenTag ++ (ws ++ (slidesCloseTag ++ s))).length + 1) := by
      simp only [List.length_append]
      omega
    rw [subSlides, hrest, subSlidesGo_copy slides p _ _ hclean]
    rw [subSlidesGo_match slides _ _ (matchHere_marker ws s hws)]
    rw [afterMatch_marker ws s hws]
    rw [subSlidesGo_no_marker slides _ s hs (by simp [List.length_append]; omega)]
    simp [List.append_assoc]

/-- Witness for C8: a template without the marker survives a build
unchanged, and a template `A<div class="slides"> </div>B!` becomes exactly
`A<div class="slides">`, newline, the slide markup, newline, `</div>B!`. -/
theorem claim8_witness :
    (build_slides [] [] "slides".data [] "<html><body>x</body></html>".data 1).output
        = "<html><body>x</body></html>".data
      ∧ subSlides "A<div class=\"slides\"> </div>B!".data "S".data
          = "A<div class=\"slides\">\nS\n</div>B!".data := by
  constructor
  · exact claim8_missing_marker_silent_noop.1 [] [] "slides".data [] _ 1 (by decide)
  · have h := claim8_missing_marker_silent_noop.2 "S".data "A".data [' '] "B!".data
      (by decide) (by decide) (by decide)
    simpa using h

/-- C10 (confirmed): the slide-container substitution fires only on an
opening tag followed — across whitespace only — by its closing tag: when
the text after the opening literal does not reduce to whitespace and then
`</div>` (the container holds non-whitespace content), and no marker occurs
elsewhere, the template is written out byte-identically, slide markup not
inserted. -/
theorem claim10_nonempty_container_not_substituted
    (slides p r : S)
    (h1 : slidesCloseTag.isPrefixOf (r.dropWhile isPSpace) = false)
    (h2 : scanClean p (slidesOpenTag ++ r) = true)
    (h3 : hasMarker (List.drop 1 (slidesOpenTag ++ r)) = false) :
    subSlides (p ++ (slidesOpenTag ++ r)) slides = p ++ (slidesOpenTag ++ r) := by
  have hmh : matchHere (slidesOpenTag ++ r) = false := by
    simp only [matchHere, isPrefixOf_append_self, List.drop_left, Bool.true_and]
    exact h1
  have hmc : ∀ (c : Char) (cs : S), hasMarker (c :: cs) = (matchHere (c :: cs) || hasMarker cs) :=
    fun _ _ => rfl
  have hm : hasMarker (slidesOpenTag ++ r) = false := by
    have e : slidesOpenTag ++ r = '<' :: ("div class=\"slides\">".data ++ r) := by
      rw [(by decide : slidesOpenTag = '<' :: "div class=\"slides\">".data)]
      simp
    have e1 : "div class=\"slides\">".data ++ r = List.drop 1 (slidesOpenTag ++ r) := by
      rw [e]
      simp
    rw [e, hmc, ← e, hmh, e1, h3]
    simp
  have hfuel : (p ++ (slidesOpenTag ++ r)).length + 1
      = p.length + ((slidesOpenTag ++ r).length + 1) := by
    simp only [List.length_append]
    omega
  rw [subSlides, hfuel, subSlidesGo_copy slides p _ _ h2]
  rw [subSlidesGo_no_marker slides _ _ hm (by omega)]

/-- Witness for C10: the template `A<div class="slides">x</div>B` — whose
container holds the non-whitespace content `x` — is left unchanged. -/
theorem claim10_witness :
    subSlides "A<div class=\"slides\">x</div>B".data "S".data
      = "A<div class=\"slides\">x</div>B".data := by
  have h := claim10_nonempty_container_not_substituted "S".data "A".data "x</div>B".data
    (by decide) (by decide) (by decide)
  simpa using h

/-!
## Lemmas for the diagram wrapper parse

Resolving a `.mermaid` directive splices the raw file text between concrete
markup literals and re-parses.  For source text free of `<` and `&` the
lexer keeps the text as one data run; the lemmas below track it through the
fold symbolically.
-/

/-- The `span` start-tag token the lexer produces for the diagram wrapper's
opening literal. -/
def diagramSpanTok : Tok :=
  .opn "span".data
    [("class".data, "diagram-data".data), ("style".data, "display: none".data)] false

/-- Lexing the diagram wrapper's opening literal from the initial state
yields exactly its start-tag token. -/
theorem lex_span_open :
    List.foldl lexStep ([], LS.text []) diagramSpanOpen = ([diagramSpanTok], LS.text []) := by
  decide

/-- Character data free of `<` and `&` accumulates unchanged. -/
theorem lex_text_fold :
    ∀ (cnt : S) (toks : List Tok) (acc : S),
      (∀ c ∈ cnt, c ≠ '<' ∧ c ≠ '&') →
      List.foldl lexStep (toks, LS.text acc) cnt = (toks, LS.text (acc ++ cnt))
  | [], toks, acc, _ => by simp
  | c :: cs, toks, acc, h => by
    have hc := h c (List.mem_cons_self c cs)
    have hstep : lexStep (toks, LS.text acc) c = (toks, LS.text (acc ++ [c])) := by
      simp only [lexStep, if_neg hc.1, if_neg hc.2]
    rw [List.foldl_cons, hstep,
      lex_text_fold cs toks (acc ++ [c]) (fun d hd => h d (List.mem_cons_of_mem c hd))]
    simp

/-- Lexing the diagram wrapper's tail from pending data `acc` closes the
span (emitting the data), then opens and closes the render-target div.  The
pending data only rides along, so this is definitional. -/
theorem lex_diagram_tail (toks : List Tok) (acc : S) :
    List.foldl lexStep (toks, LS.text acc) diagramTail
      = (((emitText toks acc ++ [Tok.cls "span".data])
            ++ [Tok.opn "div".data [("class".data, "diagram-display".data)] false])
          ++ [Tok.cls "div".data], LS.text []) := rfl

/-- Parsing the assembled diagram wrapper around nonempty source text free
of `<` and `&` yields the hidden span holding exactly that text and the
empty render-target div. -/
theorem parse_diagram (content : S) (hne : content ≠ [])
    (hcl : ∀ c ∈ content, c ≠ '<' ∧ c ≠ '&') :
    parseHtml (diagramSpanOpen ++ (content ++ diagramTail))
      = [Node.elem "span".data
           [("class".data, "diagram-data".data), ("style".data, "display: none".data)]
           (.cons (.txt content) .nil),
         Node.elem "div".data [("class".data, "diagram-display".data)] .nil] := by
  have l2 := lex_text_fold content [diagramSpanTok] [] hcl
  rw [List.nil_append] at l2
  rw [parseHtml, lexHtml, List.foldl_append, List.foldl_append, lex_span_open, l2,
    lex_diagram_tail]
  simp only [lexFinish, emitText, if_neg hne, if_pos rfl]
  rfl

/-- When a pass changes the tree, the resolver recurses on the pass's
result, counting one more pass. -/
theorem process_loads_step (fs : FS) (base : S) (fuel : Nat) (ns b : NodeList)
    (h : onePass fs base ns = (b, true)) :
    process_loads fs base (fuel + 1) ns
      = ((process_loads fs base fuel b).1, (process_loads fs base fuel b).2 + 1) := by
  simp [process_loads, h]

/-- When a pass changes nothing, the resolver stops after that single
pass. -/
theorem process_loads_stop (fs : FS) (base : S) (fuel : Nat) (ns b : NodeList)
    (h : onePass fs base ns = (b, false)) :
    process_loads fs base (fuel + 1) ns = (b, 1) := by
  simp [process_loads, h]

/-- C5 (amended): for every nonempty `.mermaid` source text containing
neither `<` nor `&`, smart-load resolution replaces the host's children by
exactly the two siblings the claim describes — a hidden node whose text is
the source text and an empty render-target node — in two passes.  (The
counterexample shows this fails once the text contains markup-significant
characters, because the text is spliced into markup and re-parsed.) -/
theorem claim5_amended_diagram_wrap (content : S) (hne : content ≠ [])
    (hcl : ∀ c ∈ content, c ≠ '<' ∧ c ≠ '&') :
    process_loads (fsMermaid content) [] 2 (.cons hostMermaid .nil)
      = (.cons (.elem "div".data [] (mermaidWrap content)) .nil, 2) := by
  have h1 : smartResolve (fsMermaid content) [] "div".data
      [("data-load".data, "d.mermaid".data)]
      = some (.elem "div".data []
          (NL.ofList (parseHtml (diagramSpanOpen ++ (content ++ diagramTail))))) := rfl
  have h2 : smartResolve (fsMermaid content) [] "div".data
      [("data-load".data, "d.mermaid".data)]
      = some (.elem "div".data [] (mermaidWrap content)) := by
    rw [h1, parse_diagram content hne hcl]
    rfl
  have h3 : passLoadL (fsMermaid content) [] (.cons hostMermaid .nil)
      = (.cons (.elem "div".data [] (mermaidWrap content)) .nil, true) := by
    simp only [passLoadL, passLoadN, hostMermaid, h2, Bool.or_false]
  have h4 : passCodeL (fsMermaid content) []
      (.cons (.elem "div".data [] (mermaidWrap content)) .nil)
      = (.cons (.elem "div".data [] (mermaidWrap content)) .nil, false) := rfl
  have h5 : onePass (fsMermaid content) [] (.cons hostMermaid .nil)
      = (.cons (.elem "div".data [] (mermaidWrap content)) .nil, true) := by
    simp only [onePass, h3, h4, Bool.or_false]
  have h6 : onePass (fsMermaid content) []
      (.cons (.elem "div".data [] (mermaidWrap content)) .nil)
      = (.cons (.elem "div".data [] (mermaidWrap content)) .nil, false) := rfl
  have hstep := process_loads_step (fsMermaid content) [] 1 _ _ h5
  have hstop := process_loads_stop (fsMermaid content) [] 0 _ _ h6
  norm_num at hstop
  rw [hstop] at hstep
  exact hstep

/-- Witness for C5: the source text `graph TD` resolves to exactly the
hidden node holding `graph TD` and the empty render target. -/
theorem claim5_witness :
    process_loads (fsMermaid "graph TD".data) [] 2 (.cons hostMermaid .nil)
      = (.cons (.elem "div".data [] (mermaidWrap "graph TD".data)) .nil, 2) :=
  claim5_amended_diagram_wrap "graph TD".data (by decide) (by decide)

end AutoReveal
